import Mathlib

/-!
Verification of the gptanon-2api proxy server (src/index.ts).

The development shallowly embeds the server's data transformation code:

* a model of JavaScript JSON values (`Json`), `JSON.parse` (`jsonParse`),
  JS truthiness (`jsTruthy`), property access (`jsGet`) and string
  coercion (`jsToString`);
* the incremental UTF-8 byte decoder used through `TextDecoder` with
  `stream: true` (`utf8Step`, `utf8DecodeChunk`), following the WHATWG
  decoding automaton (lone surrogates from escapes are out of scope of
  the claims and are mapped to the default character);
* the line reassembly done by `buffer.split('\n')` / `lines.pop()`
  (`splitLines`, `feedBytes`);
* the streaming transcoder `createUpstreamToOpenAIStream`
  (`processLine`, `transformChunk`, `runStream`);
* the aggregate transcoder `transformNonStreamResponse`
  (`aggLineAct`, `aggLoop`, `transformNonStreamResponse`);
* the auth check `validateAuth`, the model listing
  `handleModelsRequest`, the chat handler `handleChatCompletions`
  and the top-level router `serverFetch`.

Bytes are `Nat` (values < 256 in practice), text is `List Char`,
timestamps (`Math.floor(Date.now() / 1000)`) are passed in as a `now`
parameter, and the per-request id (`chatcmpl-${crypto.randomUUID()}`)
is passed in as a `requestId` parameter.
-/

mutual

/-- A JavaScript JSON value, as produced by `JSON.parse`.  Numbers are
kept as a decimal mantissa/exponent pair `m * 10 ^ e`; no claim depends
on numeric arithmetic, only on zero-ness (truthiness).  Arrays and
object field lists are their own inductive types so that all recursion
over values is structural. -/
inductive Json where
  | null : Json
  | bool (b : Bool) : Json
  | num (m : Int) (e : Int) : Json
  | str (s : String) : Json
  | arr (xs : JsonList) : Json
  | obj (fields : JsonFields) : Json
deriving DecidableEq

inductive JsonList where
  | nil : JsonList
  | cons (hd : Json) (tl : JsonList) : JsonList
deriving DecidableEq

inductive JsonFields where
  | nil : JsonFields
  | cons (k : String) (v : Json) (tl : JsonFields) : JsonFields
deriving DecidableEq

end

/-- Build a `Json.arr` from a plain list. -/
def Json.mkArr (l : List Json) : Json :=
  Json.arr (l.foldr JsonList.cons JsonList.nil)

/-- Build a `Json.obj` from a plain association list (in insertion
order, as `JSON.parse` constructs objects). -/
def Json.mkObj (l : List (String × Json)) : Json :=
  Json.obj (l.foldr (fun kv acc => JsonFields.cons kv.1 kv.2 acc) JsonFields.nil)

/-- JavaScript truthiness of a JSON value: `null`, `false`, `0` and the
empty string are falsy, everything else (including `{}` and `[]`) is
truthy. -/
def jsTruthy : Json → Bool
  | Json.null => false
  | Json.bool b => b
  | Json.num m _ => m != 0
  | Json.str s => s != ""
  | Json.arr _ => true
  | Json.obj _ => true

/-- Last binding of a key in an object's field list: `JSON.parse` keeps
the last occurrence of a duplicate key. -/
def lookupLast : JsonFields → String → Option Json
  | JsonFields.nil, _ => none
  | JsonFields.cons k' v rest, k =>
    match lookupLast rest k with
    | some r => some r
    | none => if k' = k then some v else none

/-- Property access `j[k]` on a parsed JSON value: `none` plays the role
of JavaScript `undefined`.  (Reading a property of `null` throws in JS;
in the transcoders that throw is caught by the surrounding
`try`/`catch` and the line is skipped, which coincides with the `none`
result modelled here.) -/
def jsGet (j : Json) (k : String) : Option Json :=
  match j with
  | Json.obj fields => lookupLast fields k
  | _ => none

/-- Crude model of JavaScript number-to-string conversion; only the
shape matters, no claim exercises non-string coercion. -/
def jsNumToString (m e : Int) : String :=
  if e = 0 then toString m else toString m ++ "e" ++ toString e

mutual

/-- JavaScript string coercion `String(j)`: array elements are joined
by commas with `null` elements becoming empty, objects print as
`[object Object]`. -/
def jsToString : Json → String
  | Json.null => "null"
  | Json.bool true => "true"
  | Json.bool false => "false"
  | Json.num m e => jsNumToString m e
  | Json.str s => s
  | Json.obj _ => "[object Object]"
  | Json.arr xs => jsListString xs

/-- Comma join of array elements for `jsToString`. -/
def jsListString : JsonList → String
  | JsonList.nil => ""
  | JsonList.cons Json.null JsonList.nil => ""
  | JsonList.cons j JsonList.nil => jsToString j
  | JsonList.cons Json.null tl => "," ++ jsListString tl
  | JsonList.cons j tl => jsToString j ++ "," ++ jsListString tl

end

/-- The opening brace character, written numerically. -/
def lbrace : Char := Char.ofNat 123

/-- The closing brace character, written numerically. -/
def rbrace : Char := Char.ofNat 125

/-- JSON insignificant whitespace (the only characters `JSON.parse`
skips between tokens): space, tab, line feed, carriage return. -/
def jsonWsChar (c : Char) : Bool :=
  c = ' ' || c = Char.ofNat 9 || c = Char.ofNat 10 || c = Char.ofNat 13

def skipWs : List Char → List Char
  | [] => []
  | c :: cs => if jsonWsChar c then skipWs cs else c :: cs

/-- Hexadecimal digit value, for `\uXXXX` escapes. -/
def hexVal (c : Char) : Option Nat :=
  if '0' ≤ c ∧ c ≤ '9' then some (c.toNat - 48)
  else if 'a' ≤ c ∧ c ≤ 'f' then some (c.toNat - 87)
  else if 'A' ≤ c ∧ c ≤ 'F' then some (c.toNat - 55)
  else none

def parseHex4 : List Char → Option (Nat × List Char)
  | a :: b :: c :: d :: r =>
    match hexVal a, hexVal b, hexVal c, hexVal d with
    | some x, some y, some z, some w => some (((x * 16 + y) * 16 + z) * 16 + w, r)
    | _, _, _, _ => none
  | _ => none

/-- Single-character JSON string escapes. -/
def escChar (e : Char) : Option Char :=
  if e = '"' then some '"'
  else if e = '\\' then some '\\'
  else if e = '/' then some '/'
  else if e = 'b' then some (Char.ofNat 8)
  else if e = 'f' then some (Char.ofNat 12)
  else if e = 'n' then some (Char.ofNat 10)
  else if e = 'r' then some (Char.ofNat 13)
  else if e = 't' then some (Char.ofNat 9)
  else none

/-- Body of a JSON string literal, after the opening quote: returns the
decoded characters and the input after the closing quote.  Surrogate
pairs in `\u` escapes are combined; a JS engine would keep a lone
surrogate as a UTF-16 code unit, here it collapses to the default
character (no claim exercises lone surrogates).  Raw control
characters below 0x20 are rejected, as in `JSON.parse`. -/
def parseStringBody : Nat → List Char → Option (List Char × List Char)
  | 0, _ => none
  | fuel + 1, s =>
    match s with
    | [] => none
    | c :: cs =>
      if c = '"' then some ([], cs)
      else if c = '\\' then
        match cs with
        | [] => none
        | e :: cs2 =>
          if e = 'u' then
            match parseHex4 cs2 with
            | none => none
            | some (n, cs3) =>
              if 0xD800 ≤ n ∧ n ≤ 0xDBFF then
                match cs3 with
                | '\\' :: 'u' :: cs4 =>
                  match parseHex4 cs4 with
                  | some (n2, cs5) =>
                    if 0xDC00 ≤ n2 ∧ n2 ≤ 0xDFFF then
                      (parseStringBody fuel cs5).map fun p =>
                        (Char.ofNat (0x10000 + (n - 0xD800) * 0x400 + (n2 - 0xDC00)) :: p.1, p.2)
                    else
                      (parseStringBody fuel cs3).map fun p => (Char.ofNat n :: p.1, p.2)
                  | none =>
                    (parseStringBody fuel cs3).map fun p => (Char.ofNat n :: p.1, p.2)
                | _ =>
                  (parseStringBody fuel cs3).map fun p => (Char.ofNat n :: p.1, p.2)
              else
                (parseStringBody fuel cs3).map fun p => (Char.ofNat n :: p.1, p.2)
          else
            match escChar e with
            | none => none
            | some ch => (parseStringBody fuel cs2).map fun p => (ch :: p.1, p.2)
      else if c.toNat < 32 then none
      else (parseStringBody fuel cs).map fun p => (c :: p.1, p.2)

def natOfDigits (ds : List Char) : Nat :=
  ds.foldl (fun a c => a * 10 + (c.toNat - 48)) 0

/-- Optional fraction part `.digits` of a JSON number. -/
def parseFrac : List Char → Option (List Char × List Char)
  | [] => some ([], [])
  | c :: r =>
    if c = '.' then
      let p := r.span Char.isDigit
      if p.1 = [] then none else some (p.1, p.2)
    else some ([], c :: r)

/-- Optional exponent part `e[+-]digits` of a JSON number. -/
def parseExp : List Char → Option (Int × List Char)
  | [] => some (0, [])
  | c :: r =>
    if c = 'e' ∨ c = 'E' then
      let sr : Int × List Char :=
        match r with
        | c2 :: r2 =>
          if c2 = '+' then (1, r2)
          else if c2 = '-' then (-1, r2)
          else (1, r)
        | [] => (1, r)
      let p := sr.2.span Char.isDigit
      if p.1 = [] then none else some (sr.1 * (natOfDigits p.1 : Int), p.2)
    else some (0, c :: r)

/-- A JSON number literal: `-?(0|[1-9][0-9]*)(.[0-9]+)?([eE][+-]?[0-9]+)?`. -/
def parseNumber (s : List Char) : Option (Json × List Char) :=
  let sp : Bool × List Char :=
    match s with
    | c :: r => if c = '-' then (true, r) else (false, c :: r)
    | [] => (false, [])
  match sp.2 with
  | [] => none
  | c :: _ =>
    if c.isDigit = false then none
    else
      let p := sp.2.span Char.isDigit
      if 1 < p.1.length ∧ p.1.head? = some '0' then none
      else
        match parseFrac p.2 with
        | none => none
        | some (fs, s3) =>
          match parseExp s3 with
          | none => none
          | some (ev, s4) =>
            let m : Int := (natOfDigits (p.1 ++ fs) : Int)
            some (Json.num (if sp.1 then -m else m) (ev - (fs.length : Int)), s4)

/-- Expect a fixed sequence of characters. -/
def expectChars : List Char → List Char → Option (List Char)
  | [], s => some s
  | c :: cs, d :: ds => if c = d then expectChars cs ds else none
  | _ :: _, [] => none

mutual

/-- One JSON value, by recursive descent (fuel-indexed; the fuel is set
to more than the input length at top level, and every recursive call
consumes at least one character first, so fuel never runs out on real
input). -/
def parseValue : Nat → List Char → Option (Json × List Char)
  | 0, _ => none
  | fuel + 1, s =>
    match skipWs s with
    | [] => none
    | c :: cs =>
      if c = lbrace then
        match skipWs cs with
        | c2 :: rest2 => if c2 = rbrace then some (Json.mkObj [], rest2) else parseMembers fuel cs []
        | [] => none
      else if c = '[' then
        match skipWs cs with
        | c2 :: rest2 => if c2 = ']' then some (Json.mkArr [], rest2) else parseElems fuel cs []
        | [] => none
      else if c = '"' then
        (parseStringBody (cs.length + 1) cs).map fun p => (Json.str (String.mk p.1), p.2)
      else if c = 't' then
        (expectChars "rue".toList cs).map fun r => (Json.bool true, r)
      else if c = 'f' then
        (expectChars "alse".toList cs).map fun r => (Json.bool false, r)
      else if c = 'n' then
        (expectChars "ull".toList cs).map fun r => (Json.null, r)
      else
        parseNumber (c :: cs)

/-- Members of a JSON object, after the opening brace. -/
def parseMembers : Nat → List Char → List (String × Json) → Option (Json × List Char)
  | 0, _, _ => none
  | fuel + 1, s, acc =>
    match skipWs s with
    | '"' :: rest =>
      match parseStringBody (rest.length + 1) rest with
      | none => none
      | some (key, s2) =>
        match skipWs s2 with
        | ':' :: s3 =>
          match parseValue fuel s3 with
          | none => none
          | some (v, s4) =>
            match skipWs s4 with
            | ',' :: s5 => parseMembers fuel s5 (acc ++ [(String.mk key, v)])
            | c :: s6 =>
              if c = rbrace then some (Json.mkObj (acc ++ [(String.mk key, v)]), s6) else none
            | [] => none
        | _ => none
    | _ => none

/-- Elements of a JSON array, after the opening bracket. -/
def parseElems : Nat → List Char → List Json → Option (Json × List Char)
  | 0, _, _ => none
  | fuel + 1, s, acc =>
    match parseValue fuel s with
    | none => none
    | some (v, s2) =>
      match skipWs s2 with
      | ',' :: s3 => parseElems fuel s3 (acc ++ [v])
      | ']' :: s4 => some (Json.mkArr (acc ++ [v]), s4)
      | _ => none

end

/-- Model of `JSON.parse` on a whole string: one value, with only whitespace
allowed around it; anything else fails (`none` models the thrown
`SyntaxError`, which every caller in the source catches). -/
def jsonParse (s : List Char) : Option Json :=
  match parseValue (s.length + 1) s with
  | some (v, rest) => if skipWs rest = [] then some v else none
  | none => none

/-! ## Incremental UTF-8 decoding (`TextDecoder` with `stream: true`) -/

/-- State of the WHATWG incremental UTF-8 decoder: how many
continuation bytes are still needed, the code point accumulated so far,
and the admissible range for the next byte. -/
structure Utf8State where
  needed : Nat
  seenCp : Nat
  lower : Nat
  upper : Nat
deriving DecidableEq

def utf8Init : Utf8State := ⟨0, 0, 0x80, 0xBF⟩

/-- Handle one byte in the initial state (no sequence in progress). -/
def utf8Start (b : Nat) : Utf8State × List Char :=
  if b ≤ 0x7F then (utf8Init, [Char.ofNat b])
  else if 0xC2 ≤ b ∧ b ≤ 0xDF then (⟨1, b % 32, 0x80, 0xBF⟩, [])
  else if 0xE0 ≤ b ∧ b ≤ 0xEF then
    (⟨2, b % 16, if b = 0xE0 then 0xA0 else 0x80, if b = 0xED then 0x9F else 0xBF⟩, [])
  else if 0xF0 ≤ b ∧ b ≤ 0xF4 then
    (⟨3, b % 8, if b = 0xF0 then 0x90 else 0x80, if b = 0xF4 then 0x8F else 0xBF⟩, [])
  else (utf8Init, [Char.ofNat 0xFFFD])

/-- One byte of incremental UTF-8 decoding (non-fatal mode, as the
source's `new TextDecoder()`): invalid bytes produce U+FFFD, and a
byte that aborts a sequence is reprocessed as a fresh start byte. -/
def utf8Step (s : Utf8State) (b : Nat) : Utf8State × List Char :=
  if s.needed = 0 then utf8Start b
  else if s.lower ≤ b ∧ b ≤ s.upper then
    let cp := s.seenCp * 64 + b % 64
    if s.needed = 1 then (utf8Init, [Char.ofNat cp])
    else (⟨s.needed - 1, cp, 0x80, 0xBF⟩, [])
  else
    let p := utf8Start b
    (p.1, Char.ofNat 0xFFFD :: p.2)

/-- Model of `decoder.decode(chunk, ...)` with `stream: true`: decode a whole byte
chunk, threading the decoder state, keeping an incomplete trailing
sequence pending. -/
def utf8DecodeChunk (u : Utf8State) : List Nat → Utf8State × List Char
  | [] => (u, [])
  | b :: bs =>
    let p := utf8Step u b
    let q := utf8DecodeChunk p.1 bs
    (q.1, p.2 ++ q.2)

/-- Non-streaming `decoder.decode()` / `response.text()`: decode all
bytes and flush, an incomplete trailing sequence becoming U+FFFD. -/
def utf8DecodeFull (bytes : List Nat) : List Char :=
  let p := utf8DecodeChunk utf8Init bytes
  p.2 ++ (if p.1.needed = 0 then [] else [Char.ofNat 0xFFFD])

/-- UTF-8 bytes of an ASCII string (used only to spell out concrete
all-ASCII inputs in theorem statements). -/
def asciiBytes (s : String) : List Nat :=
  s.toList.map Char.toNat

/-! ## Line reassembly (`buffer.split('\n')`; `buffer = lines.pop()`) -/

/-- Model of `text.split(newline)`: the split segments, with the (always present) final segment — the
part after the last newline — returned separately, mirroring
`lines.pop()` in the source. -/
def splitLines : List Char → List (List Char) × List Char
  | [] => ([], [])
  | c :: cs =>
    let p := splitLines cs
    if c = Char.ofNat 10 then ([] :: p.1, p.2)
    else
      match p.1 with
      | [] => ([], c :: p.2)
      | l :: ls => ((c :: l) :: ls, p.2)

/-- Model of `fullBody.split(newline)` with every segment kept, as the aggregate
transcoder iterates over all of them. -/
def splitAll (l : List Char) : List (List Char) :=
  (splitLines l).1 ++ [(splitLines l).2]

/-- Joint state of the streaming transcoder's input side: the pending
bytes of the `TextDecoder` and the retained partial line `buffer`. -/
structure TState where
  u : Utf8State
  buf : List Char
deriving DecidableEq

def initTState : TState := ⟨utf8Init, []⟩

/-- One `transform(chunk, …)` call's input side: decode the byte chunk
statefully, append to the retained buffer, split into complete lines
and keep the unterminated suffix. -/
def feedBytes (st : TState) (bytes : List Nat) : TState × List (List Char) :=
  let d := utf8DecodeChunk st.u bytes
  let p := splitLines (st.buf ++ d.2)
  (⟨d.1, p.2⟩, p.1)

/-- The line reassembler run over a whole sequence of byte chunks,
collecting the complete lines produced along the way. -/
def runReassembler (st : TState) : List (List Nat) → TState × List (List Char)
  | [] => (st, [])
  | c :: cs =>
    let p := feedBytes st c
    let q := runReassembler p.1 cs
    (q.1, p.2 ++ q.2)

/-! ## Event-line decoding shared by both transcoders -/

/-- JavaScript `String.prototype.trim` whitespace. -/
def isJsWs (c : Char) : Bool :=
  let n := c.toNat
  n = 9 || n = 10 || n = 11 || n = 12 || n = 13 || n = 32 || n = 160 || n = 0x1680 ||
    (0x2000 ≤ n && n ≤ 0x200A) || n = 0x2028 || n = 0x2029 || n = 0x202F ||
    n = 0x205F || n = 0x3000 || n = 0xFEFF

/-- Model of `s.trim()`. -/
def jsTrim (l : List Char) : List Char :=
  ((l.dropWhile isJsWs).reverse.dropWhile isJsWs).reverse

/-- Model of `line.startsWith('data:')`. -/
def startsWithData (l : List Char) : Bool :=
  List.isPrefixOf "data:".toList l

/-- Test `data.type === s` for a string literal `s`. -/
def typeIs (d : Json) (s : String) : Bool :=
  match jsGet d "type" with
  | some (Json.str t) => t == s
  | _ => false

/-- Truthiness of field `k` of `d` (`undefined` is falsy). -/
def fieldTruthy (d : Json) (k : String) : Bool :=
  match jsGet d k with
  | some v => jsTruthy v
  | none => false

/-! ## Streaming transcoder (`createUpstreamToOpenAIStream`) -/

/-- One `choices[0]` entry of an emitted chunk: the delta is the JSON
object `{content: …}` or `{}`. -/
structure StreamChoice where
  index : Nat
  delta : Json
  finish : Option String
deriving DecidableEq

/-- One OpenAI-style chunk object as enqueued by the transform (each is
serialized on the wire as `data: <JSON>` followed by a blank line). -/
structure OpenAIChunk where
  id : String
  object : String
  created : Nat
  model : String
  choices : List StreamChoice
deriving DecidableEq

/-- One unit enqueued on the output stream: a chunk, or the literal
`data: [DONE]` sentinel enqueued by `flush`. -/
inductive OutUnit where
  | chunk (c : OpenAIChunk) : OutUnit
  | sentinel : OutUnit
deriving DecidableEq

/-- The per-line body of the streaming transform's `for` loop: lines
starting with `data:` have the rest trimmed and JSON-parsed; a `token`
event with truthy `token` yields a content chunk, otherwise a `done`
event yields an empty-delta chunk with `finish_reason: "stop"`; empty
payloads, parse failures and all other events yield nothing. -/
def processLine (rid mdl : String) (now : Nat) (line : List Char) : List OutUnit :=
  if startsWithData line then
    let dataStr := jsTrim (line.drop 5)
    if dataStr = [] then []
    else
      match jsonParse dataStr with
      | none => []
      | some d =>
        let isTok := typeIs d "token" && fieldTruthy d "token"
        let content : Option Json := if isTok then jsGet d "token" else none
        let fin : Option String :=
          if isTok then none else if typeIs d "done" then some "stop" else none
        if content.isSome || fin.isSome then
          [OutUnit.chunk ⟨rid, "chat.completion.chunk", now, mdl,
            [⟨0, (match content with
                  | some c => Json.mkObj [("content", c)]
                  | none => Json.mkObj []), fin⟩]⟩]
        else []
  else []

/-- One `transform(chunk, controller)` call: reassemble lines from the
byte chunk and run the per-line loop on each complete line. -/
def transformChunk (rid mdl : String) (now : Nat) (st : TState) (bytes : List Nat) :
    TState × List OutUnit :=
  let p := feedBytes st bytes
  (p.1, (p.2.map (processLine rid mdl now)).flatten)

/-- The transform driven over a whole sequence of upstream byte chunks. -/
def runStreamAux (rid mdl : String) (now : Nat) (st : TState) :
    List (List Nat) → TState × List OutUnit
  | [] => (st, [])
  | c :: cs =>
    let p := transformChunk rid mdl now st c
    let q := runStreamAux rid mdl now p.1 cs
    (q.1, p.2 ++ q.2)

/-- The whole streaming response for a given upstream chunk sequence:
all transform outputs in order, then the `flush` callback's single
`data: [DONE]` sentinel (the retained partial line and decoder state
are discarded). -/
def runStream (rid mdl : String) (now : Nat) (chunks : List (List Nat)) : List OutUnit :=
  (runStreamAux rid mdl now initTState chunks).2 ++ [OutUnit.sentinel]

/-! ## Aggregate transcoder (`transformNonStreamResponse`) -/

/-- What one body line contributes to the aggregate loop: stop the scan
with a final content (`complete` event with truthy `content`), append a
token (`token` event with truthy `token`), or nothing. -/
inductive AggAct where
  | halt (c : Json) : AggAct
  | tok (t : Json) : AggAct
  | skip : AggAct
deriving DecidableEq

/-- The per-line decision of `transformNonStreamResponse`'s loop
(`data:` marker, trim, skip empty and `[DONE]`, JSON-parse, then the
`complete`/`token` checks in source order). -/
def aggLineAct (line : List Char) : AggAct :=
  if startsWithData line then
    let dataStr := jsTrim (line.drop 5)
    if dataStr = [] ∨ dataStr = "[DONE]".toList then AggAct.skip
    else
      match jsonParse dataStr with
      | none => AggAct.skip
      | some d =>
        if typeIs d "complete" && fieldTruthy d "content" then
          AggAct.halt ((jsGet d "content").getD Json.null)
        else if typeIs d "token" && fieldTruthy d "token" then
          AggAct.tok ((jsGet d "token").getD Json.null)
        else AggAct.skip
  else AggAct.skip

/-- The aggregate loop over the body's lines: `fullContent` starts as
the empty string, `token` texts are appended (`+=`, i.e. JS string
concatenation with coercion), and the first `complete` event replaces
it and breaks out of the loop. -/
def aggLoop (acc : Json) : List (List Char) → Json
  | [] => acc
  | l :: ls =>
    match aggLineAct l with
    | AggAct.halt c => c
    | AggAct.tok t => aggLoop (Json.str (jsToString acc ++ jsToString t)) ls
    | AggAct.skip => aggLoop acc ls

structure AggMessage where
  role : String
  content : Json
deriving DecidableEq

structure AggChoice where
  index : Nat
  message : AggMessage
  finish : String
deriving DecidableEq

structure Usage where
  prompt_tokens : Nat
  completion_tokens : Nat
  total_tokens : Nat
deriving DecidableEq

/-- The non-streaming response object. -/
structure AggResponse where
  id : String
  object : String
  created : Nat
  model : String
  choices : List AggChoice
  usage : Usage
deriving DecidableEq

/-- Model of `transformNonStreamResponse(fullBody, requestId, model)`. -/
def transformNonStreamResponse (fullBody : List Char) (rid mdl : String) (now : Nat) :
    AggResponse :=
  ⟨rid, "chat.completion", now, mdl,
    [⟨0, ⟨"assistant", aggLoop (Json.str "") (splitAll fullBody)⟩, "stop"⟩],
    ⟨0, 0, 0⟩⟩

/-! ## Configuration, auth, routing -/

/-- The `CONFIG.MODELS` list (a fixed literal in the source). -/
def CONFIG_MODELS : List String :=
  ["openai/gpt-5.1-chat",
   "x-ai/grok-4.1-fast",
   "x-ai/grok-3-mini",
   "deepseek/deepseek-prover-v2",
   "openai/gpt-4.1",
   "openai/o1-pro",
   "google/gemini-2.0-flash-001",
   "perplexity/sonar-reasoning",
   "perplexity/sonar",
   "perplexity/sonar-deep-research"]

/-- The `CONFIG.DEFAULT_MODEL` string. -/
def DEFAULT_MODEL : String := "x-ai/grok-4.1-fast"

structure ModelEntry where
  id : String
  object : String
  created : Nat
  owned_by : String
deriving DecidableEq

structure ModelsResp where
  object : String
  data : List ModelEntry
deriving DecidableEq

/-- Model of `handleModelsRequest` (the creation timestamp — `Date.now()` — is
the `now` parameter). -/
def handleModelsRequest (now : Nat) : ModelsResp :=
  ⟨"list", CONFIG_MODELS.map fun m => ⟨m, "model", now, "gptanon-2api-bun"⟩⟩

/-- A server response, by kind: the uniform error envelope (with its
HTTP status and `code`), a streamed event sequence, an aggregate chat
response, the model list, or the empty CORS preflight reply. -/
inductive ApiResult where
  | error (status : Nat) (code : String) (message : String) : ApiResult
  | stream (units : List OutUnit) : ApiResult
  | aggregate (r : AggResponse) : ApiResult
  | models (m : ModelsResp) : ApiResult
  | preflight : ApiResult
deriving DecidableEq

/-- HTTP status of a response (non-error responses are 200 except the
204 preflight). -/
def resultStatus : ApiResult → Nat
  | ApiResult.error s _ _ => s
  | ApiResult.preflight => 204
  | _ => 200

/-- Model of `validateAuth(req)`: `none` means the request passed.  The header
is `none` when absent (JS `null`; the empty string is equally falsy
and equally fails the prefix test). -/
def validateAuth (masterKey : String) (authHeader : Option String) : Option ApiResult :=
  match authHeader with
  | none => some (ApiResult.error 401 "unauthorized" "Missing or invalid Authorization header.")
  | some h =>
    if List.isPrefixOf "Bearer ".toList h.toList then
      if String.mk (h.toList.drop 7) = masterKey then none
      else some (ApiResult.error 403 "invalid_api_key" "Invalid API Key.")
    else some (ApiResult.error 401 "unauthorized" "Missing or invalid Authorization header.")

/-- The upstream `fetch` outcome: HTTP status, `content-type` header
(`none` when absent) and the response body as byte chunks. -/
structure UpstreamResp where
  status : Nat
  contentType : Option String
  bodyChunks : List (List Nat)

/-- Test `upstreamResponse.ok`: status in [200, 300). -/
def upstreamOk (u : UpstreamResp) : Bool :=
  200 ≤ u.status && u.status < 300

/-- Substring test, for `contentType.includes('text/event-stream')`. -/
def containsSub (hay needle : List Char) : Bool :=
  match hay with
  | [] => needle.isEmpty
  | _ :: t => List.isPrefixOf needle hay || containsSub t needle

/-- Test `contentType && contentType.includes('text/event-stream')` (a
missing header is `null`, hence falsy). -/
def ctIncludesSSE (ct : Option String) : Bool :=
  match ct with
  | none => false
  | some s => containsSub s.toList "text/event-stream".toList

/-- Test `requestData.stream !== false`. -/
def streamFieldOk (rd : Json) : Bool :=
  match jsGet rd "stream" with
  | some (Json.bool false) => false
  | _ => true

/-- Value of `requestData.model || CONFIG.DEFAULT_MODEL`, as the string that
ends up in response objects (non-string model values would be
stringified on serialization; claims only exercise strings). -/
def requestModel (rd : Json) : String :=
  match jsGet rd "model" with
  | some m => if jsTruthy m then jsToString m else DEFAULT_MODEL
  | none => DEFAULT_MODEL

/-- Model of `handleChatCompletions`, after the routing layer: `requestData` is
the parsed request body (`none` when `req.json()` threw, which the
`catch` turns into a 500 before the upstream is consulted), `upstream`
the outcome of the upstream `fetch`.  A non-ok upstream status becomes
an `upstream_error` with the same status; otherwise the response is
streamed iff `stream !== false` and the upstream content type contains
`text/event-stream`. -/
def handleChatCompletions (requestData : Option Json) (upstream : UpstreamResp)
    (requestId : String) (now : Nat) : ApiResult :=
  match requestData with
  | none => ApiResult.error 500 "internal_server_error" "Internal Server Error"
  | some rd =>
    if upstreamOk upstream then
      if streamFieldOk rd && ctIncludesSSE upstream.contentType then
        ApiResult.stream (runStream requestId (requestModel rd) now upstream.bodyChunks)
      else
        ApiResult.aggregate (transformNonStreamResponse
          (utf8DecodeFull upstream.bodyChunks.flatten) requestId (requestModel rd) now)
    else
      ApiResult.error upstream.status "upstream_error"
        ("Upstream error: " ++ toString upstream.status)

/-- Routing after CORS and auth. -/
def routeAfterAuth (method path : String) (body : Option Json) (upstream : UpstreamResp)
    (requestId : String) (now : Nat) : ApiResult :=
  if path = "/v1/models" then ApiResult.models (handleModelsRequest now)
  else if path = "/v1/chat/completions" ∧ method = "POST" then
    handleChatCompletions body upstream requestId now
  else ApiResult.error 404 "not_found" ("Path not found: " ++ path)

/-- The server's `fetch` handler: CORS preflight first, then the auth
check for `/v1/*` paths, then routing. -/
def serverFetch (masterKey method path : String) (authHeader : Option String)
    (body : Option Json) (upstream : UpstreamResp) (requestId : String) (now : Nat) :
    ApiResult :=
  if method = "OPTIONS" then ApiResult.preflight
  else if List.isPrefixOf "/v1/".toList path.toList then
    match validateAuth masterKey authHeader with
    | some e => e
    | none => routeAfterAuth method path body upstream requestId now
  else routeAfterAuth method path body upstream requestId now

/-- The first line of the body (in order) that the aggregate loop's
`complete` branch fires on, and the content it would assign; `none`
when the loop never breaks. -/
def findComplete : List (List Char) → Option Json
  | [] => none
  | l :: ls =>
    match aggLineAct l with
    | AggAct.halt c => some c
    | _ => findComplete ls

/-- Whether a response is the streaming shape (an event stream of
chunks) rather than a single JSON document. -/
def isStreamShape : ApiResult → Bool
  | ApiResult.stream _ => true
  | _ => false

/-! ## Lemmas: chunking invariance of the line reassembler -/

theorem utf8DecodeChunk_append (a : List Nat) :
    ∀ (b : List Nat) (u : Utf8State),
      utf8DecodeChunk u (a ++ b) =
        ((utf8DecodeChunk (utf8DecodeChunk u a).1 b).1,
         (utf8DecodeChunk u a).2 ++ (utf8DecodeChunk (utf8DecodeChunk u a).1 b).2) := by
  induction a with
  | nil => intro b u; simp [utf8DecodeChunk]
  | cons x xs ih =>
    intro b u
    simp [utf8DecodeChunk, ih, List.append_assoc]

theorem splitLines_append (x : List Char) :
    ∀ y : List Char,
      splitLines (x ++ y) =
        ((splitLines x).1 ++ (splitLines ((splitLines x).2 ++ y)).1,
         (splitLines ((splitLines x).2 ++ y)).2) := by
  induction x with
  | nil => intro y; simp [splitLines]
  | cons c cs ih =>
    intro y
    by_cases hc : c = Char.ofNat 10
    · simp [splitLines, hc, ih]
    · cases h : (splitLines cs).1 with
      | nil => simp [splitLines, hc, ih, h]
      | cons l ls => simp [splitLines, hc, ih, h]

theorem splitLines_of_no_newline (l : List Char) (h : Char.ofNat 10 ∉ l) :
    splitLines l = ([], l) := by
  induction l with
  | nil => rfl
  | cons c cs ih =>
    simp only [List.mem_cons, not_or] at h
    have hc : ¬ c = Char.ofNat 10 := fun hh => h.1 hh.symm
    simp [splitLines, hc, ih h.2]

theorem no_newline_splitLines_snd (l : List Char) : Char.ofNat 10 ∉ (splitLines l).2 := by
  induction l with
  | nil => simp [splitLines]
  | cons c cs ih =>
    by_cases hc : c = Char.ofNat 10
    · simpa [splitLines, hc] using ih
    · cases h : (splitLines cs).1 with
      | nil =>
        simp only [splitLines, hc, if_neg hc, h]
        intro hm
        rcases List.mem_cons.mp hm with h1 | h2
        · exact hc h1.symm
        · exact ih h2
      | cons l' ls => simpa [splitLines, hc, h] using ih

theorem feedBytes_append (st : TState) (a b : List Nat) :
    feedBytes st (a ++ b) =
      ((feedBytes (feedBytes st a).1 b).1,
       (feedBytes st a).2 ++ (feedBytes (feedBytes st a).1 b).2) := by
  simp only [feedBytes, utf8DecodeChunk_append]
  rw [← List.append_assoc, splitLines_append (st.buf ++ (utf8DecodeChunk st.u a).2)]

theorem feedBytes_buf_no_newline (st : TState) (bytes : List Nat) :
    Char.ofNat 10 ∉ (feedBytes st bytes).1.buf := by
  simp only [feedBytes]
  exact no_newline_splitLines_snd _

theorem runReassembler_flatten (chunks : List (List Nat)) :
    ∀ st : TState, Char.ofNat 10 ∉ st.buf →
      runReassembler st chunks = feedBytes st chunks.flatten := by
  induction chunks with
  | nil =>
    intro st hb
    simp [runReassembler, feedBytes, utf8DecodeChunk, splitLines_of_no_newline st.buf hb]
  | cons c cs ih =>
    intro st hb
    simp only [runReassembler, List.flatten_cons]
    rw [feedBytes_append, ih _ (feedBytes_buf_no_newline st c)]

/-! ## Lemmas: the streaming transform enqueues only chunks -/

theorem processLine_no_sentinel (rid mdl : String) (now : Nat) (line : List Char) :
    OutUnit.sentinel ∉ processLine rid mdl now line := by
  intro hmem
  unfold processLine at hmem
  dsimp only at hmem
  repeat' split at hmem
  all_goals simp at hmem

theorem runStreamAux_no_sentinel (chunks : List (List Nat)) :
    ∀ (rid mdl : String) (now : Nat) (st : TState),
      OutUnit.sentinel ∉ (runStreamAux rid mdl now st chunks).2 := by
  induction chunks with
  | nil => intro rid mdl now st; simp [runStreamAux]
  | cons c cs ih =>
    intro rid mdl now st
    simp only [runStreamAux, transformChunk, List.mem_append, not_or]
    refine ⟨?_, ih rid mdl now _⟩
    intro hm
    rcases List.mem_flatten.mp hm with ⟨l, hl, hml⟩
    rcases List.mem_map.mp hl with ⟨ln, _, rfl⟩
    exact processLine_no_sentinel rid mdl now ln hml

/-! ## Claim theorems -/

/-- C1: in streaming mode, the upstream event lines
`data: {"type":"token","token":"Hel"}`, `data: {"type":"token","token":"lo"}`,
`data: {"type":"done"}` transcode to exactly two content chunks with
deltas "Hel" and "lo" in order, then one empty-delta chunk with
finish_reason "stop"; and for every upstream chunk sequence the
`data: [DONE]` sentinel is the single final output unit, with no chunk
after it. -/
theorem c1_streaming_token_done_sequence :
    (∀ rid mdl now, runStream rid mdl now
        [asciiBytes "data: \x7b\"type\":\"token\",\"token\":\"Hel\"\x7d\ndata: \x7b\"type\":\"token\",\"token\":\"lo\"\x7d\ndata: \x7b\"type\":\"done\"\x7d\n"] =
      [OutUnit.chunk ⟨rid, "chat.completion.chunk", now, mdl,
          [⟨0, Json.mkObj [("content", Json.str "Hel")], none⟩]⟩,
       OutUnit.chunk ⟨rid, "chat.completion.chunk", now, mdl,
          [⟨0, Json.mkObj [("content", Json.str "lo")], none⟩]⟩,
       OutUnit.chunk ⟨rid, "chat.completion.chunk", now, mdl,
          [⟨0, Json.mkObj [], some "stop"⟩]⟩,
       OutUnit.sentinel]) ∧
    (∀ rid mdl now chunks, ∃ us,
      runStream rid mdl now chunks = us ++ [OutUnit.sentinel] ∧ OutUnit.sentinel ∉ us) := by
  constructor
  · intro rid mdl now
    rfl
  · intro rid mdl now chunks
    exact ⟨(runStreamAux rid mdl now initTState chunks).2, rfl,
      runStreamAux_no_sentinel chunks rid mdl now initTState⟩

/-- C2: the line reassembler produces the same ordered sequence of
complete logical lines (and ends in the same state) for every split of
the upstream bytes into chunks as for single-chunk delivery — byte
boundaries, including those inside a multi-byte character, are
invisible. -/
theorem c2_reassembler_chunking_invariance :
    ∀ chunks : List (List Nat),
      runReassembler initTState chunks = runReassembler initTState [chunks.flatten] := by
  intro chunks
  rw [runReassembler_flatten chunks initTState (by simp [initTState]),
    runReassembler_flatten [chunks.flatten] initTState (by simp [initTState])]
  simp

/-- C9: `GET /v1/models` returns a `data` array of the same length as
the configured model list whose `id` fields are the configured model
identifiers verbatim, in order. -/
theorem c9_models_list_verbatim :
    ∀ now : Nat,
      ((handleModelsRequest now).data.map fun e => e.id) = CONFIG_MODELS ∧
      (handleModelsRequest now).data.length = CONFIG_MODELS.length :=
  fun _ => ⟨rfl, rfl⟩

/-- C5: a line that does not start with `data:`, or whose remainder
after the marker is not valid JSON, contributes nothing in either
transcoder — the streaming loop emits no unit and the aggregate loop
leaves its accumulator unchanged (no error is possible: both loops are
total functions). -/
theorem c5_invalid_lines_skipped :
    ∀ (rid mdl : String) (now : Nat) (line : List Char) (acc : Json) (rest : List (List Char)),
      (startsWithData line = false ∨ jsonParse (jsTrim (line.drop 5)) = none) →
      processLine rid mdl now line = [] ∧ aggLoop acc (line :: rest) = aggLoop acc rest := by
  intro rid mdl now line acc rest h
  have hact : aggLineAct line = AggAct.skip := by
    unfold aggLineAct
    rcases h with h | h
    · simp [h]
    · by_cases hs : startsWithData line
      · by_cases he : jsTrim (line.drop 5) = [] ∨ jsTrim (line.drop 5) = "[DONE]".toList
        · rcases he with he | he <;> simp [hs, he]
        · simp [hs, he, h]
      · simp [hs]
  have hpl : processLine rid mdl now line = [] := by
    unfold processLine
    rcases h with h | h
    · simp [h]
    · by_cases hs : startsWithData line
      · by_cases he : jsTrim (line.drop 5) = []
        · simp [hs, he]
        · simp [hs, he, h]
      · simp [hs]
  exact ⟨hpl, by simp [aggLoop, hact]⟩

/-- C5 witness: a keep-alive noise line produces nothing anywhere. -/
theorem c5_witness :
    (startsWithData "event: ping".toList = false ∨
      jsonParse (jsTrim (("event: ping".toList).drop 5)) = none) ∧
    processLine "id" "m" 0 "event: ping".toList = [] ∧
    aggLoop (Json.str "") ["event: ping".toList] = aggLoop (Json.str "") [] :=
  ⟨Or.inl rfl, c5_invalid_lines_skipped "id" "m" 0 _ (Json.str "") [] (Or.inl rfl)⟩

/-- C10: an event line whose payload is a token event with empty text
produces no streaming chunk and appends nothing in the aggregate loop,
exactly like an unrecognized line. -/
theorem c10_empty_token_no_output :
    ∀ (rid mdl : String) (now : Nat) (line : List Char) (acc : Json)
      (rest : List (List Char)) (d : Json),
      jsonParse (jsTrim (line.drop 5)) = some d →
      jsGet d "type" = some (Json.str "token") →
      jsGet d "token" = some (Json.str "") →
      processLine rid mdl now line = [] ∧ aggLoop acc (line :: rest) = aggLoop acc rest := by
  intro rid mdl now line acc rest d hp ht htok
  have htis : typeIs d "token" = true := by simp [typeIs, ht]
  have htisC : typeIs d "complete" = false := by simp [typeIs, ht]
  have htisD : typeIs d "done" = false := by simp [typeIs, ht]
  have hft : fieldTruthy d "token" = false := by simp [fieldTruthy, htok, jsTruthy]
  have hact : aggLineAct line = AggAct.skip := by
    unfold aggLineAct
    by_cases hs : startsWithData line
    · by_cases he : jsTrim (line.drop 5) = [] ∨ jsTrim (line.drop 5) = "[DONE]".toList
      · rcases he with he | he <;> simp [hs, he]
      · simp [hs, he, hp, htisC, htis, hft]
    · simp [hs]
  have hpl : processLine rid mdl now line = [] := by
    unfold processLine
    by_cases hs : startsWithData line
    · by_cases he : jsTrim (line.drop 5) = []
      · simp [hs, he]
      · simp [hs, he, hp, htis, htisD, hft]
    · simp [hs]
  exact ⟨hpl, by simp [aggLoop, hact]⟩

/-- C10 witness: the literal empty-token event line is invisible in
both transcoders. -/
theorem c10_witness :
    jsonParse (jsTrim (("data: \x7b\"type\":\"token\",\"token\":\"\"\x7d".toList).drop 5)) =
      some (Json.mkObj [("type", Json.str "token"), ("token", Json.str "")]) ∧
    processLine "id" "m" 0 "data: \x7b\"type\":\"token\",\"token\":\"\"\x7d".toList = [] ∧
    aggLoop (Json.str "x") ["data: \x7b\"type\":\"token\",\"token\":\"\"\x7d".toList] =
      aggLoop (Json.str "x") [] :=
  ⟨rfl, c10_empty_token_no_output "id" "m" 0 _ (Json.str "x") [] _ rfl rfl rfl⟩

/-- C4 (amended): a decoded `complete` event is silently dropped by the
streaming transcoder — the per-line loop emits no unit for it. -/
theorem c4_amended_complete_silently_ignored :
    ∀ (rid mdl : String) (now : Nat) (line : List Char) (d : Json),
      jsonParse (jsTrim (line.drop 5)) = some d →
      jsGet d "type" = some (Json.str "complete") →
      processLine rid mdl now line = [] := by
  intro rid mdl now line d hp ht
  have htisT : typeIs d "token" = false := by simp [typeIs, ht]
  have htisD : typeIs d "done" = false := by simp [typeIs, ht]
  unfold processLine
  by_cases hs : startsWithData line
  · by_cases he : jsTrim (line.drop 5) = []
    · simp [hs, he]
    · simp [hs, he, hp, htisT, htisD]
  · simp [hs]

/-- C4 counterexample: a stream consisting only of a `complete` event
produces exactly the same output as an empty stream — just the
sentinel — so the event is dropped silently, contradicting the claim
that it yields some output unit. -/
theorem c4_counterexample_complete_dropped :
    runStream "id" "m" 0
        [asciiBytes "data: \x7b\"type\":\"complete\",\"content\":\"Hi\"\x7d\n"] =
      [OutUnit.sentinel] ∧
    runStream "id" "m" 0 [] = [OutUnit.sentinel] :=
  ⟨rfl, rfl⟩

/-- C4 witness: the amended theorem applied to the literal complete
event line. -/
theorem c4_amended_witness :
    jsonParse (jsTrim (("data: \x7b\"type\":\"complete\",\"content\":\"Hi\"\x7d".toList).drop 5)) =
      some (Json.mkObj [("type", Json.str "complete"), ("content", Json.str "Hi")]) ∧
    processLine "id" "m" 0 "data: \x7b\"type\":\"complete\",\"content\":\"Hi\"\x7d".toList = [] :=
  ⟨rfl, c4_amended_complete_silently_ignored "id" "m" 0 _ _ rfl rfl⟩

/-- Helper for C6: once the scan finds a line on which the `complete`
branch fires, the loop returns that line's content, whatever was
accumulated before. -/
theorem aggLoop_findComplete (ls : List (List Char)) :
    ∀ (acc c : Json), findComplete ls = some c → aggLoop acc ls = c := by
  induction ls with
  | nil => intro acc c h; simp [findComplete] at h
  | cons l ls ih =>
    intro acc c h
    cases hact : aggLineAct l with
    | halt c' =>
      rw [findComplete, hact] at h
      simp only [Option.some.injEq] at h
      simp [aggLoop, hact, h]
    | tok t =>
      rw [findComplete, hact] at h
      simp [aggLoop, hact, ih _ _ h]
    | skip =>
      rw [findComplete, hact] at h
      simp [aggLoop, hact, ih _ _ h]

/-- C6 (amended): if the body contains a line decoding to a `complete`
event with truthy (in particular, nonempty-string) content, the first
such line's content becomes the whole answer — tokens are never
double-counted — and unconditionally the aggregate response has
finish_reason "stop" and an all-zero usage record. -/
theorem c6_amended_first_truthy_complete_wins :
    ∀ (body : List Char) (rid mdl : String) (now : Nat) (c : Json),
      findComplete (splitAll body) = some c →
      (transformNonStreamResponse body rid mdl now).choices =
        [⟨0, ⟨"assistant", c⟩, "stop"⟩] ∧
      (transformNonStreamResponse body rid mdl now).usage = ⟨0, 0, 0⟩ := by
  intro body rid mdl now c h
  unfold transformNonStreamResponse
  rw [aggLoop_findComplete _ _ _ h]
  exact ⟨rfl, rfl⟩

/-- C6 counterexample: a token "A" followed by a `complete` event whose
text is the empty string — the claim says the answer is replaced by
that text, but the code's truthiness test skips the event and the
answer stays "A". -/
theorem c6_counterexample_empty_complete_ignored :
    (transformNonStreamResponse
        (String.toList "data: \x7b\"type\":\"token\",\"token\":\"A\"\x7d\ndata: \x7b\"type\":\"complete\",\"content\":\"\"\x7d")
        "id" "m" 0).choices =
      [⟨0, ⟨"assistant", Json.str "A"⟩, "stop"⟩] ∧
    Json.str "A" ≠ Json.str "" :=
  ⟨rfl, by decide⟩

/-- C6 witness: token "A" then `complete` with text "Hi"; the answer is
"Hi", not "AHi". -/
theorem c6_witness :
    findComplete (splitAll
        (String.toList "data: \x7b\"type\":\"token\",\"token\":\"A\"\x7d\ndata: \x7b\"type\":\"complete\",\"content\":\"Hi\"\x7d")) =
      some (Json.str "Hi") ∧
    (transformNonStreamResponse
        (String.toList "data: \x7b\"type\":\"token\",\"token\":\"A\"\x7d\ndata: \x7b\"type\":\"complete\",\"content\":\"Hi\"\x7d")
        "id" "m" 0).choices =
      [⟨0, ⟨"assistant", Json.str "Hi"⟩, "stop"⟩] ∧
    (transformNonStreamResponse
        (String.toList "data: \x7b\"type\":\"token\",\"token\":\"A\"\x7d\ndata: \x7b\"type\":\"complete\",\"content\":\"Hi\"\x7d")
        "id" "m" 0).usage = ⟨0, 0, 0⟩ :=
  ⟨rfl, c6_amended_first_truthy_complete_wins _ "id" "m" 0 _ rfl⟩

/-- C3 (amended): the aggregate transcoder is strictly line-based — a
line not starting with the `data:` marker contributes nothing no matter
what it contains, and two events concatenated on a single line are both
lost (the remainder is not valid JSON), while the same events on
separate lines both contribute. -/
theorem c3_amended_linewise_extraction :
    (∀ line : List Char, startsWithData line = false → aggLineAct line = AggAct.skip) ∧
    (transformNonStreamResponse
        (String.toList "data: \x7b\"type\":\"token\",\"token\":\"A\"\x7ddata: \x7b\"type\":\"token\",\"token\":\"B\"\x7d")
        "id" "m" 0).choices =
      [⟨0, ⟨"assistant", Json.str ""⟩, "stop"⟩] ∧
    (transformNonStreamResponse
        (String.toList "data: \x7b\"type\":\"token\",\"token\":\"A\"\x7d\ndata: \x7b\"type\":\"token\",\"token\":\"B\"\x7d")
        "id" "m" 0).choices =
      [⟨0, ⟨"assistant", Json.str "AB"⟩, "stop"⟩] := by
  refine ⟨?_, rfl, rfl⟩
  intro line h
  unfold aggLineAct
  simp [h]

/-- C3 witness: the amended theorem's line-start condition applied to a
line where the marker only occurs mid-line. -/
theorem c3_amended_witness :
    startsWithData (String.toList "x data: \x7b\"type\":\"token\",\"token\":\"A\"\x7d") = false ∧
    aggLineAct (String.toList "x data: \x7b\"type\":\"token\",\"token\":\"A\"\x7d") = AggAct.skip :=
  ⟨rfl, c3_amended_linewise_extraction.1 _ rfl⟩

/-- C3 counterexample: two token events concatenated on one line — the
claim says both tokens are found and contribute (answer "AB"), but the
line-based scan parses nothing from that line and the answer is empty. -/
theorem c3_counterexample_midline_event_not_found :
    (transformNonStreamResponse
        (String.toList "data: \x7b\"type\":\"token\",\"token\":\"A\"\x7ddata: \x7b\"type\":\"token\",\"token\":\"B\"\x7d")
        "id" "m" 0).choices =
      [⟨0, ⟨"assistant", Json.str ""⟩, "stop"⟩] ∧
    Json.str "" ≠ Json.str "AB" :=
  ⟨rfl, by decide⟩

/-- Helper for C7: the substring scan agrees with list-infix. -/
theorem containsSub_iff (hay needle : List Char) :
    containsSub hay needle = true ↔ needle <:+: hay := by
  induction hay with
  | nil => simp [containsSub, List.infix_nil, List.isEmpty_iff]
  | cons c t ih =>
    simp [containsSub, List.infix_cons_iff, ih, List.isPrefixOf_iff_prefix]

/-- Helper for C7: the `stream !== false` test, as a proposition. -/
theorem streamFieldOk_iff (rd : Json) :
    streamFieldOk rd = true ↔ jsGet rd "stream" ≠ some (Json.bool false) := by
  unfold streamFieldOk
  cases h : jsGet rd "stream" with
  | none => simp
  | some j =>
    cases j <;> simp
    rename_i b
    cases b <;> simp

/-- Helper for C7: the content-type test, as a proposition. -/
theorem ctIncludesSSE_iff (ct : Option String) :
    ctIncludesSSE ct = true ↔
      ∃ s, ct = some s ∧ "text/event-stream".toList <:+: s.toList := by
  cases ct with
  | none => simp [ctIncludesSSE]
  | some s => simp [ctIncludesSSE, containsSub_iff]

/-- C7 (amended): for a successful upstream call the response is the
streaming shape iff the request's `stream` field is not literally
`false` AND the upstream content type is present and contains
`text/event-stream` — not a function of the `stream` field alone. -/
theorem c7_amended_shape_iff_stream_and_sse :
    ∀ (rd : Json) (up : UpstreamResp) (rid : String) (now : Nat),
      upstreamOk up = true →
      (isStreamShape (handleChatCompletions (some rd) up rid now) = true ↔
        (jsGet rd "stream" ≠ some (Json.bool false) ∧
          ∃ ct, up.contentType = some ct ∧ "text/event-stream".toList <:+: ct.toList)) := by
  intro rd up rid now hok
  have key : (streamFieldOk rd && ctIncludesSSE up.contentType) = true ↔
      (jsGet rd "stream" ≠ some (Json.bool false) ∧
        ∃ ct, up.contentType = some ct ∧ "text/event-stream".toList <:+: ct.toList) := by
    rw [Bool.and_eq_true, streamFieldOk_iff, ctIncludesSSE_iff]
  rw [← key]
  cases hb : (streamFieldOk rd && ctIncludesSSE up.contentType) <;>
    simp [handleChatCompletions, hok, hb, isStreamShape]

/-- C7 counterexample: same request (`stream: true`) but two different
upstream content types; the shape flips, so it is not determined by the
`stream` field alone, and a client that requested streaming gets an
aggregate response. -/
theorem c7_counterexample_shape_depends_on_content_type :
    isStreamShape (handleChatCompletions (some (Json.mkObj [("stream", Json.bool true)]))
        ⟨200, some "application/json", []⟩ "id" 0) = false ∧
    isStreamShape (handleChatCompletions (some (Json.mkObj [("stream", Json.bool true)]))
        ⟨200, some "text/event-stream", []⟩ "id" 0) = true :=
  ⟨rfl, rfl⟩

/-- C7 witness: the amended equivalence at a concrete request and
upstream response. -/
theorem c7_witness :
    upstreamOk ⟨200, some "application/json", []⟩ = true ∧
    (isStreamShape (handleChatCompletions (some (Json.mkObj [("stream", Json.bool true)]))
        ⟨200, some "application/json", []⟩ "id" 0) = true ↔
      (jsGet (Json.mkObj [("stream", Json.bool true)]) "stream" ≠ some (Json.bool false) ∧
        ∃ ct, (some "application/json" : Option String) = some ct ∧
          "text/event-stream".toList <:+: ct.toList)) :=
  ⟨rfl, c7_amended_shape_iff_stream_and_sse (Json.mkObj [("stream", Json.bool true)])
    ⟨200, some "application/json", []⟩ "id" 0 rfl⟩

/-- Helper for C8: a missing header fails auth with 401. -/
theorem validateAuth_none (key : String) :
    validateAuth key none =
      some (ApiResult.error 401 "unauthorized" "Missing or invalid Authorization header.") := rfl

/-- Helper for C8: a header without the `Bearer ` marker fails auth
with 401. -/
theorem validateAuth_badMarker (key h : String)
    (hpre : List.isPrefixOf "Bearer ".toList h.toList = false) :
    validateAuth key (some h) =
      some (ApiResult.error 401 "unauthorized" "Missing or invalid Authorization header.") := by
  simp only [validateAuth]
  rw [if_neg (by simp only [hpre]; decide)]

/-- Helper for C8: a bearer token different from the secret fails auth
with 403. -/
theorem validateAuth_wrongKey (key h : String)
    (hpre : List.isPrefixOf "Bearer ".toList h.toList = true)
    (hkey : String.mk (h.toList.drop 7) ≠ key) :
    validateAuth key (some h) =
      some (ApiResult.error 403 "invalid_api_key" "Invalid API Key.") := by
  simp only [validateAuth]
  rw [if_pos hpre, if_neg hkey]

/-- Helper for C8: the correct bearer token passes auth. -/
theorem validateAuth_ok (key h : String)
    (hpre : List.isPrefixOf "Bearer ".toList h.toList = true)
    (hkey : String.mk (h.toList.drop 7) = key) :
    validateAuth key (some h) = none := by
  simp only [validateAuth]
  rw [if_pos hpre, if_pos hkey]

/-- C8 (amended): for non-preflight requests (any method other than
OPTIONS, which short-circuits to the CORS 204 before the auth check):
a `/v1/*` request with a missing authorization header, or one not
starting with `Bearer `, is answered 401 `unauthorized`; a bearer token
different from the configured secret is answered 403 `invalid_api_key`;
and with the correct token, a chat completion whose upstream call
returns a non-success status is answered with that same status and
code `upstream_error`. -/
theorem c8_amended_auth_and_upstream_errors :
    (∀ (key method path : String) (auth : Option String) (body : Option Json)
        (up : UpstreamResp) (rid : String) (now : Nat),
      method ≠ "OPTIONS" →
      List.isPrefixOf "/v1/".toList path.toList = true →
      (auth = none ∨ ∃ h, auth = some h ∧ List.isPrefixOf "Bearer ".toList h.toList = false) →
      serverFetch key method path auth body up rid now =
        ApiResult.error 401 "unauthorized" "Missing or invalid Authorization header.") ∧
    (∀ (key method path h : String) (body : Option Json) (up : UpstreamResp)
        (rid : String) (now : Nat),
      method ≠ "OPTIONS" →
      List.isPrefixOf "/v1/".toList path.toList = true →
      List.isPrefixOf "Bearer ".toList h.toList = true →
      String.mk (h.toList.drop 7) ≠ key →
      serverFetch key method path (some h) body up rid now =
        ApiResult.error 403 "invalid_api_key" "Invalid API Key.") ∧
    (∀ (key h : String) (j : Json) (up : UpstreamResp) (rid : String) (now : Nat),
      List.isPrefixOf "Bearer ".toList h.toList = true →
      String.mk (h.toList.drop 7) = key →
      upstreamOk up = false →
      serverFetch key "POST" "/v1/chat/completions" (some h) (some j) up rid now =
        ApiResult.error up.status "upstream_error" ("Upstream error: " ++ toString up.status)) := by
  refine ⟨?_, ?_, ?_⟩
  · intro key method path auth body up rid now hm hpath hauth
    unfold serverFetch
    rw [if_neg hm, if_pos hpath]
    rcases hauth with rfl | ⟨h, rfl, hpre⟩
    · rw [validateAuth_none]
    · rw [validateAuth_badMarker key h hpre]
  · intro key method path h body up rid now hm hpath hpre hkey
    unfold serverFetch
    rw [if_neg hm, if_pos hpath, validateAuth_wrongKey key h hpre hkey]
  · intro key h j up rid now hpre hkey hup
    unfold serverFetch
    rw [if_neg (by decide : ¬ ("POST" : String) = "OPTIONS"),
      if_pos (by decide :
        List.isPrefixOf "/v1/".toList ("/v1/chat/completions" : String).toList = true),
      validateAuth_ok key h hpre hkey]
    dsimp only
    unfold routeAfterAuth
    rw [if_neg (by decide : ¬ ("/v1/chat/completions" : String) = "/v1/models"),
      if_pos (⟨rfl, rfl⟩ :
        ("/v1/chat/completions" : String) = "/v1/chat/completions" ∧ ("POST" : String) = "POST")]
    unfold handleChatCompletions
    dsimp only
    rw [if_neg (by simp [hup])]

/-- C8 counterexample: an OPTIONS request to a `/v1/*` route with no
authorization header is answered by the CORS preflight handler with
status 204, not by the 401 the claim requires for every such request. -/
theorem c8_counterexample_options_bypasses_auth :
    serverFetch "1" "OPTIONS" "/v1/models" none none ⟨200, none, []⟩ "id" 0 =
      ApiResult.preflight ∧
    resultStatus ApiResult.preflight = 204 :=
  ⟨rfl, rfl⟩

/-- C8 witness: the three amended clauses at concrete requests
(missing header, wrong bearer token, upstream 503). -/
theorem c8_witness :
    serverFetch "1" "GET" "/v1/models" none none ⟨200, none, []⟩ "id" 0 =
      ApiResult.error 401 "unauthorized" "Missing or invalid Authorization header." ∧
    serverFetch "1" "GET" "/v1/models" (some "Bearer 2") none ⟨200, none, []⟩ "id" 0 =
      ApiResult.error 403 "invalid_api_key" "Invalid API Key." ∧
    serverFetch "1" "POST" "/v1/chat/completions" (some "Bearer 1") (some (Json.mkObj []))
        ⟨503, none, []⟩ "id" 0 =
      ApiResult.error 503 "upstream_error" ("Upstream error: " ++ toString (503 : Nat)) :=
  ⟨c8_amended_auth_and_upstream_errors.1 "1" "GET" "/v1/models" none none
      ⟨200, none, []⟩ "id" 0 (by decide) (by decide) (Or.inl rfl),
   c8_amended_auth_and_upstream_errors.2.1 "1" "GET" "/v1/models" "Bearer 2" none
      ⟨200, none, []⟩ "id" 0 (by decide) (by decide) (by decide) (by decide),
   c8_amended_auth_and_upstream_errors.2.2 "1" "Bearer 1" (Json.mkObj [])
      ⟨503, none, []⟩ "id" 0 (by decide) rfl (by decide)⟩
